import Mathlib

namespace Sysutil

/-! Shallow embedding of the sysutil GPU-metrics decoder (`src/rust/src/gpu.rs`,
`src/rust/src/utils.rs`) and of the network byte-decoding subsystem
(`src/rust/src/network.rs`).  A Rust `Vec<u8>` is modelled as `List (Fin 256)`,
a Rust `String`/`&str` as `List Char`, and a Rust panic as `none` of the
enclosing `Option`-valued function. -/

abbrev LC := List Char

/-- Embeds `utils.rs bytesToU16`: reads `bytes[1]` then `bytes[0]` (an
out-of-bounds index, i.e. a Rust panic, is `none`), shifts the high byte left
by eight doublings in `u16` arithmetic and adds the low byte. -/
def bytesToU16 (bytes : List (Fin 256)) : Option Nat :=
  (bytes.get? 1).bind fun first =>
  (bytes.get? 0).bind fun second =>
  let tmp := (List.range 8).foldl (fun t _ => t * 2 % 65536) first.val
  some ((tmp + second.val) % 65536)

/-- Embeds `utils.rs bytesToU32`: little-endian reconstruction of a 32-bit
value from bytes `3,2,1,0`; the shift-and-add cannot overflow `u32` because
every byte is below 256. -/
def bytesToU32 (bytes : List (Fin 256)) : Option Nat :=
  (bytes.get? 3).bind fun first =>
  (bytes.get? 2).bind fun second =>
  (bytes.get? 1).bind fun third =>
  (bytes.get? 0).bind fun fourth =>
  some (first.val * 2 ^ 24 + second.val * 2 ^ 16 + third.val * 2 ^ 8 + fourth.val)

/-- Embeds the `GpuMetrics` record of `gpu.rs`. -/
structure GpuMetrics where
  temperatureEdge : Nat
  temperatureHotspot : Nat
  temperatureMem : Nat
  temperatureVrgfx : Nat
  temperatureVrsoc : Nat
  temperatureVrmem : Nat
  averageSocketPower : Nat
  averageGfxclkFrequency : Nat
  averageSockclkFrequency : Nat
  averageUclkFrequency : Nat
  currentGfxclk : Nat
  currentSockclk : Nat
  currentUclk : Nat
  currentVclk0 : Nat
  currentDclk0 : Nat
  currentVclk1 : Nat
  currentDclk1 : Nat
  throttleStatus : Nat
  currentFanSpeed : Nat
  pcieLinkWidth : Nat
  pcieLinkSpeed : Nat
deriving Repr, DecidableEq

/-- Rust slice `bytes[a..b]` (panics, i.e. `none`, when `b` exceeds the length
or `a > b`). -/
def slice (bytes : List (Fin 256)) (a b : Nat) : Option (List (Fin 256)) :=
  if a ≤ b ∧ b ≤ bytes.length then some ((bytes.drop a).take (b - a)) else none

/-- Embeds the call pattern `bytesToU16(bytes[i..i+2].to_vec())` of
`gpu.rs gpuMetrics`. -/
def u16at (payload : List (Fin 256)) (i : Nat) : Option Nat :=
  (slice payload i (i + 2)).bind bytesToU16

/-- Embeds the call pattern `bytesToU32(bytes[i..i+4].to_vec())` of
`gpu.rs gpuMetrics`. -/
def u32at (payload : List (Fin 256)) (i : Nat) : Option Nat :=
  (slice payload i (i + 4)).bind bytesToU32

/-- Embeds the seven version-dependent reads of `gpu.rs gpuMetrics` (struct
fields `temperatureEdge` through `averageSocketPower`): the content byte `0`
selects the legacy offsets, any other value the current ones.  Read order
matches the struct-literal order of the source. -/
def readTemps (content : Fin 256) (payload : List (Fin 256)) :
    Option (Nat × Nat × Nat × Nat × Nat × Nat × Nat) :=
  (if content.val = 0 then u16at payload 8 else u16at payload 0).bind fun temperatureEdge =>
  (if content.val = 0 then u16at payload 10 else u16at payload 2).bind fun temperatureHotspot =>
  (if content.val = 0 then u16at payload 12 else u16at payload 4).bind fun temperatureMem =>
  (if content.val = 0 then u16at payload 14 else u16at payload 6).bind fun temperatureVrgfx =>
  (if content.val = 0 then u16at payload 16 else u16at payload 8).bind fun temperatureVrsoc =>
  (if content.val = 0 then u16at payload 18 else u16at payload 10).bind fun temperatureVrmem =>
  (if content.val = 0 then u16at payload 26 else u16at payload 18).bind fun averageSocketPower =>
  some (temperatureEdge, temperatureHotspot, temperatureMem, temperatureVrgfx,
    temperatureVrsoc, temperatureVrmem, averageSocketPower)

/-- Embeds the three version-independent average-clock reads of
`gpu.rs gpuMetrics` (offsets 36, 38, 40). -/
def readAvgClks (payload : List (Fin 256)) : Option (Nat × Nat × Nat) :=
  (u16at payload 36).bind fun averageGfxclkFrequency =>
  (u16at payload 38).bind fun averageSockclkFrequency =>
  (u16at payload 40).bind fun averageUclkFrequency =>
  some (averageGfxclkFrequency, averageSockclkFrequency, averageUclkFrequency)

/-- Embeds the seven current-clock reads of `gpu.rs gpuMetrics`
(offsets 50, 52, 54, 56, 58, 60, 62). -/
def readCurClks (payload : List (Fin 256)) :
    Option (Nat × Nat × Nat × Nat × Nat × Nat × Nat) :=
  (u16at payload 50).bind fun currentGfxclk =>
  (u16at payload 52).bind fun currentSockclk =>
  (u16at payload 54).bind fun currentUclk =>
  (u16at payload 56).bind fun currentVclk0 =>
  (u16at payload 58).bind fun currentDclk0 =>
  (u16at payload 60).bind fun currentVclk1 =>
  (u16at payload 62).bind fun currentDclk1 =>
  some (currentGfxclk, currentSockclk, currentUclk, currentVclk0, currentDclk0,
    currentVclk1, currentDclk1)

/-- Embeds the trailing reads of `gpu.rs gpuMetrics`: throttle status (u32 at
64) then fan speed, PCIe link width and speed (u16 at 68, 70, 72). -/
def readTail (payload : List (Fin 256)) : Option (Nat × Nat × Nat × Nat) :=
  (u32at payload 64).bind fun throttleStatus =>
  (u16at payload 68).bind fun currentFanSpeed =>
  (u16at payload 70).bind fun pcieLinkWidth =>
  (u16at payload 72).bind fun pcieLinkSpeed =>
  some (throttleStatus, currentFanSpeed, pcieLinkWidth, pcieLinkSpeed)

/-- Embeds the body of `gpu.rs gpuMetrics` after a successful file read.  The
outer `Option` is a Rust panic (out-of-bounds indexing); the inner `Option` is
the function's own return value.  The reads are staged into the four groups
above; the read order and offsets are exactly those of the source's struct
literal. -/
def gpuMetricsDecode (bytes : List (Fin 256)) : Option (Option GpuMetrics) :=
  (bytes.get? 2).bind fun format =>
  (bytes.get? 3).bind fun content =>
  let payload := bytes.drop 4
  if format.val ≠ 1 then some none else
  (readTemps content payload).bind fun t =>
  (readAvgClks payload).bind fun a =>
  (readCurClks payload).bind fun c =>
  (readTail payload).bind fun d =>
  some (some
    { temperatureEdge := t.1, temperatureHotspot := t.2.1, temperatureMem := t.2.2.1,
      temperatureVrgfx := t.2.2.2.1, temperatureVrsoc := t.2.2.2.2.1,
      temperatureVrmem := t.2.2.2.2.2.1, averageSocketPower := t.2.2.2.2.2.2,
      averageGfxclkFrequency := a.1, averageSockclkFrequency := a.2.1,
      averageUclkFrequency := a.2.2,
      currentGfxclk := c.1, currentSockclk := c.2.1, currentUclk := c.2.2.1,
      currentVclk0 := c.2.2.2.1, currentDclk0 := c.2.2.2.2.1,
      currentVclk1 := c.2.2.2.2.2.1, currentDclk1 := c.2.2.2.2.2.2,
      throttleStatus := d.1, currentFanSpeed := d.2.1, pcieLinkWidth := d.2.2.1,
      pcieLinkSpeed := d.2.2.2 })

/-- Embeds `gpu.rs gpuMetrics`: `filePipe` stands for the result of `fs::read`
on the metrics blob (`none` = read error, in which case the function returns
`None` before touching any byte). -/
def gpuMetrics (filePipe : Option (List (Fin 256))) : Option (Option GpuMetrics) :=
  match filePipe with
  | none => some none
  | some bytes => gpuMetricsDecode bytes

/-- Little-endian `u16` at payload offset `i`, written directly from the
spec's offset table: `payload[i+1]*256 + payload[i]`. -/
def u16LE (payload : List (Fin 256)) (i : Nat) : Nat :=
  (payload.getD (i + 1) 0).val * 256 + (payload.getD i 0).val

/-- Little-endian `u32` at payload offset `i`, per the spec's offset table. -/
def u32LE (payload : List (Fin 256)) (i : Nat) : Nat :=
  (payload.getD (i + 3) 0).val * 2 ^ 24 + (payload.getD (i + 2) 0).val * 2 ^ 16 +
    (payload.getD (i + 1) 0).val * 2 ^ 8 + (payload.getD i 0).val

/-- Expected decoding per the spec's offset table: legacy offsets when the
content/version byte (byte 3) is `0`, current offsets otherwise; all other
fields at single version-independent offsets. -/
def expectedMetrics (bytes : List (Fin 256)) : GpuMetrics :=
  let payload := bytes.drop 4
  let content := (bytes.getD 3 0).val
  { temperatureEdge := if content = 0 then u16LE payload 8 else u16LE payload 0
    temperatureHotspot := if content = 0 then u16LE payload 10 else u16LE payload 2
    temperatureMem := if content = 0 then u16LE payload 12 else u16LE payload 4
    temperatureVrgfx := if content = 0 then u16LE payload 14 else u16LE payload 6
    temperatureVrsoc := if content = 0 then u16LE payload 16 else u16LE payload 8
    temperatureVrmem := if content = 0 then u16LE payload 18 else u16LE payload 10
    averageSocketPower := if content = 0 then u16LE payload 26 else u16LE payload 18
    averageGfxclkFrequency := u16LE payload 36
    averageSockclkFrequency := u16LE payload 38
    averageUclkFrequency := u16LE payload 40
    currentGfxclk := u16LE payload 50
    currentSockclk := u16LE payload 52
    currentUclk := u16LE payload 54
    currentVclk0 := u16LE payload 56
    currentDclk0 := u16LE payload 58
    currentVclk1 := u16LE payload 60
    currentDclk1 := u16LE payload 62
    throttleStatus := u32LE payload 64
    currentFanSpeed := u16LE payload 68
    pcieLinkWidth := u16LE payload 70
    pcieLinkSpeed := u16LE payload 72 }

/-- Concrete 78-byte buffer: format byte 1, content byte 0 (legacy branch),
otherwise pairwise-distinct payload bytes. -/
def buf78 : List (Fin 256) :=
  (List.range 78).map fun i => if i = 2 then 1 else if i = 3 then 0 else Fin.ofNat (i + 100)

/-- Concrete 78-byte buffer with format byte 1 and nonzero content byte
(current branch). -/
def buf78c : List (Fin 256) :=
  (List.range 78).map fun i => if i = 2 then 1 else Fin.ofNat (i + 40)

/-- Concrete 77-byte buffer with format byte 1: one byte short of the minimal
in-bounds length. -/
def buf77 : List (Fin 256) :=
  (List.range 77).map fun i => if i = 2 then 1 else Fin.ofNat i

/-- Concrete buffer with an unsupported format byte. -/
def bufBadFormat : List (Fin 256) := [9, 9, 7, 3, 0, 0, 0, 0]

/-- Concrete 78-byte buffer with an unsupported format byte (byte 2 is 2). -/
def buf78b : List (Fin 256) :=
  (List.range 78).map fun i => Fin.ofNat i

/-! String-level embedding for `network.rs`.  Rust strings are ASCII in every
input the kernel produces, so a `String`/`&str` is modelled as `List Char` and
byte indices coincide with character indices. -/

/-- Rust `str::split(c)` for a one-character pattern: keeps empty chunks and
yields one empty chunk for the empty string. -/
def splitOnChar (c : Char) : LC → List LC
  | [] => [[]]
  | x :: rest =>
    let r := splitOnChar c rest
    if x = c then [] :: r
    else
      match r with
      | [] => [[x]]
      | h :: t => (x :: h) :: t

/-- Helper for substring containment: does `l` start with `p`? -/
def startsWith : LC → LC → Bool
  | [], _ => true
  | _ :: _, [] => false
  | p :: ps, x :: xs => p = x && startsWith ps xs

/-- Rust `str::contains(pat)` for a multi-character pattern. -/
def containsSeq (pat : LC) : LC → Bool
  | [] => startsWith pat []
  | x :: xs => startsWith pat (x :: xs) || containsSeq pat xs

/-- Leading half of Rust `str::trim`. -/
def trimLeft (l : LC) : LC := l.dropWhile Char.isWhitespace

/-- Trailing half of Rust `str::trim`. -/
def trimRight : LC → LC
  | [] => []
  | c :: rest =>
    let r := trimRight rest
    if r.isEmpty ∧ c.isWhitespace then [] else c :: r

/-- Rust `str::trim`: whitespace stripped from both ends. -/
def trimStr (l : LC) : LC := trimRight (trimLeft l)

/-- Rust `str::replace("|--", "")`, as used on fib_trie lines: removes every
occurrence of the pattern, scanning left to right. -/
def removeBarDashes : LC → LC
  | '|' :: '-' :: '-' :: rest => removeBarDashes rest
  | c :: rest => c :: removeBarDashes rest
  | [] => []

/-- Rust `str::get(a..b)` (ASCII inputs): `none` when the range exceeds the
string. -/
def sliceGet (l : LC) (a b : Nat) : Option LC :=
  if a ≤ b ∧ b ≤ l.length then some ((l.drop a).take (b - a)) else none

/-- Rust `u8::from_str`: an optional leading plus sign, then at least one
decimal digit; errors (none) on any other character or on overflow past 255. -/
def parseU8 (s : LC) : Option Nat :=
  let digits := match s with | '+' :: rest => rest | _ => s
  if digits.isEmpty then none
  else if digits.all Char.isDigit then
    let v := digits.foldl (fun a c => a * 10 + (c.toNat - 48)) 0
    if v ≤ 255 then some v else none
  else none

/-- Value of one hexadecimal digit as consumed by `i64::from_str_radix(_, 16)`
(decimal digits, lowercase and uppercase letters). -/
def hexDigitVal (c : Char) : Option Nat :=
  if 48 ≤ c.toNat ∧ c.toNat ≤ 57 then some (c.toNat - 48)
  else if 97 ≤ c.toNat ∧ c.toNat ≤ 102 then some (c.toNat - 87)
  else if 65 ≤ c.toNat ∧ c.toNat ≤ 70 then some (c.toNat - 55)
  else none

/-- Digits of a hex numeral, left to right, failing on the first non-digit. -/
def mapHexDigits : LC → Option (List Nat)
  | [] => some []
  | c :: rest =>
    (hexDigitVal c).bind fun d =>
    (mapHexDigits rest).bind fun ds =>
    some (d :: ds)

/-- Rust `i64::from_str_radix(s, 16)`: an optional sign, at least one hex
digit, error on overflow past the i64 range. -/
def parseHexI64 (s : LC) : Option Int :=
  let sign : Int := if s.headD ' ' = '-' then -1 else 1
  let digits := if s.headD ' ' = '+' ∨ s.headD ' ' = '-' then s.tail else s
  if digits.isEmpty then none
  else
    (mapHexDigits digits).bind fun ds =>
    let v : Nat := ds.foldl (fun a d => a * 16 + d) 0
    if sign = 1 then (if v ≤ 2 ^ 63 - 1 then some (v : Int) else none)
    else (if v ≤ 2 ^ 63 then some (-(v : Int)) else none)

/-- Decimal rendering of a natural number, as Rust `to_string`. -/
def natDec (n : Nat) : LC := Nat.toDigits 10 n

/-- Rust `i64::to_string`. -/
def intDec (i : Int) : LC := if i < 0 then '-' :: natDec i.natAbs else natDec i.toNat

/-- Rust `Vec::join(separator)`. -/
def joinSep (separator : LC) : List LC → LC
  | [] => []
  | [x] => x
  | x :: xs => x ++ separator ++ joinSep separator xs

/-- Embeds the chunk loop of `network.rs bytesToAddress`: the hex string is
consumed two characters at a time (`&address[index..index+2]`, a panic when a
lone character remains), each pair parsed as hex. -/
def hexChunks : LC → Option (List Int)
  | [] => some []
  | [_] => none
  | a :: b :: rest =>
    (parseHexI64 [a, b]).bind fun v =>
    (hexChunks rest).bind fun vs =>
    some (v :: vs)

/-- Embeds `network.rs bytesToAddress`: split into 2-character hex pairs left
to right, convert each to an integer rendered in decimal, reverse the chunk
order, join with the separator. -/
def bytesToAddress (address separator : LC) : Option LC :=
  (hexChunks address).bind fun chunks =>
  some (joinSep separator ((chunks.map intDec).reverse))

/-- Embeds `network.rs bytesToPort`: `split_at(2)` (panic when the field is
shorter than two characters), first half the low byte, second half the high
byte, combined in wrapping u16 arithmetic. -/
def bytesToPort (port : LC) : Option Nat :=
  if port.length < 2 then none
  else
    let lsbField := port.take 2
    let msbField := port.drop 2
    (parseHexI64 msbField).bind fun msb =>
    (parseHexI64 lsbField).bind fun lsb =>
    some ((((msb % 65536).toNat * 256) % 65536 + (lsb % 65536).toNat) % 65536)

/-- Embeds the `RouteType` enum of `network.rs`. -/
inductive RouteType where
  | TCP | TCP6 | UDP | UDP6
deriving DecidableEq, Repr

/-- Embeds the `RouteStatus` enum of `network.rs`. -/
inductive RouteStatus where
  | ESTABLISHED | SYN_SENT | SYN_RECEIVED | FIN_WAIT1 | FIN_WAIT2 | TIME_WAIT
  | CLOSED | CLOSE_WAIT | LAST_ACKNOWLEDGMENT | LISTENING | CLOSING
  | NEW_SYN_RECEIVED
deriving DecidableEq, Repr

/-- Embeds `RouteStatus::fromTcpCode`: eleven recognised codes, every other
code mapping to the NEW_SYN_RECEIVED catch-all. -/
def fromTcpCode (code : LC) : RouteStatus :=
  if code = ("01").data then RouteStatus.ESTABLISHED
  else if code = ("02").data then RouteStatus.SYN_SENT
  else if code = ("03").data then RouteStatus.SYN_RECEIVED
  else if code = ("04").data then RouteStatus.FIN_WAIT1
  else if code = ("05").data then RouteStatus.FIN_WAIT2
  else if code = ("06").data then RouteStatus.TIME_WAIT
  else if code = ("07").data then RouteStatus.CLOSED
  else if code = ("08").data then RouteStatus.CLOSE_WAIT
  else if code = ("09").data then RouteStatus.LAST_ACKNOWLEDGMENT
  else if code = ("0A").data then RouteStatus.LISTENING
  else if code = ("0B").data then RouteStatus.CLOSING
  else RouteStatus.NEW_SYN_RECEIVED

/-- Embeds the `NetworkRoute` record of `network.rs`. -/
structure NetworkRoute where
  routeType : RouteType
  localAddress : LC
  localPort : Nat
  remoteAddress : LC
  remotePort : Nat
  routeStatus : RouteStatus
deriving DecidableEq, Repr

/-- Embeds the `local`/`remote` handling of one `getRoutes` line: the field is
split on a colon, element 0 decoded as an address, element 1 as a port (a
missing element is a Rust index panic). -/
def parseEndpoint (separator field : LC) : Option (LC × Nat) :=
  let parts := splitOnChar ':' field
  (parts.get? 0).bind fun a =>
  (bytesToAddress a separator).bind fun address =>
  (parts.get? 1).bind fun p =>
  (bytesToPort p).bind fun port =>
  some (address, port)

/-- Embeds the line loop of `network.rs getRoutes`: lines without a colon are
skipped; otherwise the trimmed line is split on single spaces, field 1 is the
local endpoint, field 2 the remote endpoint, field 3 the status code (used for
the TCP families only; UDP routes are LISTENING). -/
def getRoutesLines (separator : LC) (routeType : RouteType) : List LC → Option (List NetworkRoute)
  | [] => some []
  | line :: rest =>
    if containsSeq [':'] line then
      (let splittedLine := splitOnChar ' ' (trimStr line)
       (splittedLine.get? 1).bind fun localField =>
       (parseEndpoint separator localField).bind fun localEp =>
       (splittedLine.get? 2).bind fun remoteField =>
       (parseEndpoint separator remoteField).bind fun remoteEp =>
       (splittedLine.get? 3).bind fun statusField =>
       let status := if routeType = RouteType.TCP ∨ routeType = RouteType.TCP6
                     then fromTcpCode (trimStr statusField) else RouteStatus.LISTENING
       (getRoutesLines separator routeType rest).bind fun routes =>
       some (({ routeType := routeType, localAddress := localEp.1, localPort := localEp.2,
                remoteAddress := remoteEp.1, remotePort := remoteEp.2,
                routeStatus := status } : NetworkRoute) :: routes))
    else getRoutesLines separator routeType rest


/-- Embeds `network.rs getRoutes` on the whole file content. -/
def getRoutes (file separator : LC) (routeType : RouteType) : Option (List NetworkRoute) :=
  getRoutesLines separator routeType (splitOnChar '\n' file)


/-- Embeds `network.rs bitsToByte`: the bit slice is reversed, then each bit
is weighted by the power of two of its (new) position, in u8 arithmetic —
altogether an MSB-first packing of the original slice. -/
def bitsToByte (bits : List Nat) : Nat :=
  let b := bits.reverse
  (List.range 8).foldl (fun byte i => (byte + b.getD i 0 * (2 ^ i % 256) % 256) % 256) 0

/-- Embeds `network.rs netmaskFromCidr`: 32 bits, the first `cidr` of them 1,
packed 8 at a time by `bitsToByte` and rendered as dotted decimal octets. -/
def netmaskFromCidr (cidr : Nat) : LC :=
  let bits := (List.range 32).map fun i => if i < cidr then (1 : Nat) else 0
  let mask := (List.range 4).map fun k => bitsToByte ((bits.drop (8 * k)).take 8)
  joinSep ['.'] [natDec (mask.getD 0 0), natDec (mask.getD 1 0),
    natDec (mask.getD 2 0), natDec (mask.getD 3 0)]

/-- Netmask written directly from the spec's words: the 32-bit value whose top
`cidr` bits are 1, split MSB-first into four octets, rendered dot-separated. -/
def specNetmask (cidr : Nat) : LC :=
  let m := 2 ^ 32 - 2 ^ (32 - cidr)
  joinSep ['.'] [natDec (m / 2 ^ 24 % 256), natDec (m / 2 ^ 16 % 256),
    natDec (m / 2 ^ 8 % 256), natDec (m % 256)]

/-- Octets of a dotted string, each parsed as u8 (`unwrap`, so a parse failure
is a panic). -/
def mapParseU8 : List LC → Option (List Nat)
  | [] => some []
  | s :: rest =>
    (parseU8 s).bind fun v =>
    (mapParseU8 rest).bind fun vs =>
    some (v :: vs)

/-- Embeds `network.rs makeu8Vec`. -/
def makeu8Vec (ip : LC) : Option (List Nat) :=
  mapParseU8 (splitOnChar '.' ip)

/-- One iteration of the octet loop of `ipToBaseNetwork`: `ipVec[i] & maskVec[i]`
with Rust index panics. -/
def octetAnd (ipVec maskVec : List Nat) (i : Nat) : Option Nat :=
  (ipVec.get? i).bind fun a =>
  (maskVec.get? i).bind fun b =>
  some (a.land b)

/-- Embeds `network.rs ipToBaseNetwork`: bitwise-AND of the four address and
netmask octets, rendered dot-separated. -/
def ipToBaseNetwork (ip mask : LC) : Option LC :=
  (makeu8Vec ip).bind fun ipVec =>
  (makeu8Vec mask).bind fun maskVec =>
  (octetAnd ipVec maskVec 0).bind fun b0 =>
  (octetAnd ipVec maskVec 1).bind fun b1 =>
  (octetAnd ipVec maskVec 2).bind fun b2 =>
  (octetAnd ipVec maskVec 3).bind fun b3 =>
  some (joinSep ['.'] [natDec b0, natDec b1, natDec b2, natDec b3])

/-- One fib_trie tuple of `getIPv4`: address, broadcast, derived netmask, cidr
text. -/
abbrev FibEntry := LC × LC × LC × LC

/-- Marker announcing a subnet entry in fib_trie. -/
def markerPat : LC := ("link UNICAST").data

/-- Marker announcing the local-host entry in fib_trie. -/
def hostLocalPat : LC := ("host LOCAL").data

/-- Marker of the route-file header line. -/
def gatewayPat : LC := ("Gateway").data

mutual
/-- Embeds the fib_trie scanning loop of `network.rs getIPv4` (the `while`
over lines): a line containing "link UNICAST" opens an entry whose cidr is the
2-character slice at 1..3 of the trimmed line; the following line (with "|--"
removed) is skipped as a branch when it contains '+', reprocessed when it is
itself a marker, and otherwise is the entry's address, after which scanning
continues at `fibAwait`.  Rust unwrap panics are `none`. -/
def fibScan : List LC → Option (List FibEntry)
  | [] => some []
  | line :: rest =>
    if containsSeq markerPat line then
      match sliceGet (trimStr line) 1 3 with
      | none => none
      | some cidr =>
        match rest with
        | [] => none
        | l1 :: rest2 =>
          let binding := removeBarDashes l1
          if containsSeq ['+'] binding then fibScan rest2
          else if containsSeq markerPat binding then fibScan (l1 :: rest2)
          else fibAwait (trimStr binding) cidr (l1 :: rest2)
    else fibScan rest

/-- Embeds the inner `while` of `getIPv4` that scans forward to the first
"host LOCAL" line; the line after it (with "|--" removed and trimmed) is the
broadcast, the netmask is derived from the parsed cidr (`unwrap`, a panic when
the slice is not a decimal number), and scanning resumes on the remaining
lines.  Running past the end of the file is an index panic. -/
def fibAwait (address cidr : LC) : List LC → Option (List FibEntry)
  | [] => none
  | hl :: after =>
    if containsSeq hostLocalPat hl then
      match after with
      | [] => none
      | bline :: rest3 =>
        let broadcast := trimStr (removeBarDashes bline)
        match parseU8 cidr with
        | none => none
        | some v =>
          match fibScan rest3 with
          | none => none
          | some ts => some ((address, broadcast, netmaskFromCidr v, cidr) :: ts)
    else fibAwait address cidr after
end

/-- Embeds the inner `for (address, broadcast, netmask, cidrMask) in &addresses`
loop of `getIPv4`: the first tuple whose base network equals the decoded route
network wins; a tuple already in `usedIps` ends the scan with no binding
(`break` with `ip` still empty). -/
def scanAddresses (network : LC) (usedIps : List LC) : List FibEntry → Option (Option FibEntry)
  | [] => some none
  | entry :: restA =>
    (ipToBaseNetwork entry.1 entry.2.2.1).bind fun baseAddress =>
    if network = baseAddress then
      (if usedIps.contains entry.1 then some none else some (some entry))
    else scanAddresses network usedIps restA

/-- Embeds the `IPv4` record of `network.rs`. -/
structure IPv4 where
  address : LC
  interface : LC
  broadcast : LC
  netmask : LC
  cidr : LC
deriving DecidableEq, Repr

/-- Embeds the route-file loop of `getIPv4`: empty lines and lines containing
"Gateway" are skipped; otherwise the line is split on tabs, field 0 (trimmed)
is the device, field 1 the hex destination network decoded with separator '.',
and the first unconsumed matching fib tuple is bound to the device, its
address appended to `usedIps`; a binding with an empty address is recorded in
`usedIps` but pushed to no output. -/
def routeLoop (addresses : List FibEntry) (usedIps : List LC) : List LC → Option (List IPv4)
  | [] => some []
  | line :: rest =>
    if line.isEmpty ∨ containsSeq gatewayPat line then routeLoop addresses usedIps rest
    else
      (let splittedLine := splitOnChar '\t' line
       let device := trimStr (splittedLine.headD [])
       (splittedLine.get? 1).bind fun f1 =>
       (bytesToAddress (trimStr f1) ['.']).bind fun network =>
       (scanAddresses network usedIps addresses).bind fun found =>
       match found with
       | none => routeLoop addresses usedIps rest
       | some entry =>
         (routeLoop addresses (usedIps ++ [entry.1]) rest).bind fun ipv4Addresses =>
         if entry.1.isEmpty then some ipv4Addresses
         else some (({ address := entry.1, interface := device, broadcast := entry.2.1,
                       netmask := entry.2.2.1, cidr := entry.2.2.2 } : IPv4) :: ipv4Addresses))

/-- Embeds `network.rs getIPv4` as a function of the two proc-file contents:
fib_trie is scanned into address tuples, then each route line is bound to at
most one tuple. -/
def getIPv4 (routeFile fibTrie : LC) : Option (List IPv4) :=
  (fibScan (splitOnChar '\n' fibTrie)).bind fun addresses =>
  routeLoop addresses [] (splitOnChar '\n' routeFile)

/-- Hexadecimal rendering of a natural number (Rust would write it with the
lowercase hex formatter). -/
def natHex (n : Nat) : LC := Nat.toDigits 16 n

/-- Address rendering claimed by the spec for v6 routes: the decoded byte
groups, reversed, rendered as hexadecimal and joined with colons. -/
def hexGroupsOf (field : LC) : Option LC :=
  (hexChunks field).bind fun vs =>
  some (joinSep [':'] ((vs.map fun v => natHex v.toNat).reverse))


/-- Concrete fib_trie content: one subnet entry 192.168.1.0/24 with local
broadcast 192.168.1.255. -/
def fibTrieC2 : LC :=
  ("/24 link UNICAST\n|-- 192.168.1.0\n/32 host LOCAL\n|-- 192.168.1.255").data

/-- Concrete route file: a header line plus two device entries with the same
destination network 192.168.1.0 (hex 0001A8C0, little-endian). -/
def routeFileC2 : LC :=
  ("Iface\tDestination\tGateway\neth0\t0001A8C0\t00000000\neth1\t0001A8C0\t00000000").data

/-- The single binding `getIPv4` produces for `routeFileC2`/`fibTrieC2`. -/
def ipv4C2 : IPv4 :=
  { address := ("192.168.1.0").data, interface := ("eth0").data,
    broadcast := ("192.168.1.255").data, netmask := ("255.255.255.0").data,
    cidr := ("24").data }

/-- Concrete fib_trie whose marker line has the one-digit prefix "/8" and
whose following line is a "+" trie branch. -/
def c9fib : LC := ("/8 link UNICAST\n|-- +").data

/-- Fib_trie line family: a marker line whose two prefix characters are the
parameters, then a plain address line, a host-LOCAL line and a broadcast
line. -/
def fibFamily (c1 c2 : Char) : List LC :=
  [('/' :: c1 :: c2 :: (" link UNICAST").data),
   ("|-- 10.0.0.0").data, ("/32 host LOCAL").data, ("|-- 10.0.0.255").data]

/-- Concrete tcp6 proc line whose local address carries the byte 0x1F. -/
def c7file : LC :=
  ("0: 1F000000000000000000000000000000:0050 00000000000000000000000000000000:0000 0A").data

/-- The route record `getRoutes` produces for `c7file`. -/
def c7route : NetworkRoute :=
  { routeType := RouteType.TCP6,
    localAddress := ("0:0:0:0:0:0:0:0:0:0:0:0:0:0:0:31").data,
    localPort := 20480,
    remoteAddress := ("0:0:0:0:0:0:0:0:0:0:0:0:0:0:0:0").data,
    remotePort := 0,
    routeStatus := RouteStatus.LISTENING }


section GpuLemmas

lemma foldl_double (v : Nat) (hv : v < 256) :
    (List.range 8).foldl (fun t _ => t * 2 % 65536) v = v * 256 := by
  have h8 : List.range 8 = [0, 1, 2, 3, 4, 5, 6, 7] := by decide
  rw [h8]
  simp only [List.foldl]
  omega

lemma get?_eq_some_getD {α : Type} [Inhabited α] (l : List α) (i : Nat)
    (h : i < l.length) : l.get? i = some (l.getD i default) := by
  rw [List.get?_eq_get h]
  rw [List.getD_eq_get?, List.get?_eq_get h]
  rfl

lemma u16at_eq (payload : List (Fin 256)) (i : Nat) (h : i + 2 ≤ payload.length) :
    u16at payload i = some (u16LE payload i) := by
  have hi : i < payload.length := by omega
  have hi1 : i + 1 < payload.length := by omega
  unfold u16at slice
  rw [if_pos ⟨by omega, h⟩]
  have hlen : 2 ≤ (payload.drop i).length := by
    rw [List.length_drop]; omega
  have e1 : ((payload.drop i).take (i + 2 - i)).get? 1 = payload.get? (i + 1) := by
    rw [List.get?_take (by omega), List.get?_drop]
  have e0 : ((payload.drop i).take (i + 2 - i)).get? 0 = payload.get? i := by
    rw [List.get?_take (by omega), List.get?_drop, Nat.add_zero]
  unfold bytesToU16
  rw [Option.some_bind]
  simp only [e1, e0, get?_eq_some_getD payload _ hi1, get?_eq_some_getD payload _ hi,
    Option.some_bind]
  rw [foldl_double _ (payload.getD (i + 1) default).isLt]
  have b1 : (payload.getD (i + 1) default).val < 256 := (payload.getD (i + 1) default).isLt
  have b0 : (payload.getD i default).val < 256 := (payload.getD i default).isLt
  unfold u16LE
  congr 1
  have : (payload.getD (i + 1) default).val * 256 + (payload.getD i default).val < 65536 := by
    omega
  rw [Nat.mod_eq_of_lt this]
  rfl

lemma u32at_eq (payload : List (Fin 256)) (i : Nat) (h : i + 4 ≤ payload.length) :
    u32at payload i = some (u32LE payload i) := by
  have hi : i < payload.length := by omega
  have hi1 : i + 1 < payload.length := by omega
  have hi2 : i + 2 < payload.length := by omega
  have hi3 : i + 3 < payload.length := by omega
  unfold u32at slice
  rw [if_pos ⟨by omega, h⟩]
  have e3 : ((payload.drop i).take (i + 4 - i)).get? 3 = payload.get? (i + 3) := by
    rw [List.get?_take (by omega), List.get?_drop]
  have e2 : ((payload.drop i).take (i + 4 - i)).get? 2 = payload.get? (i + 2) := by
    rw [List.get?_take (by omega), List.get?_drop]
  have e1 : ((payload.drop i).take (i + 4 - i)).get? 1 = payload.get? (i + 1) := by
    rw [List.get?_take (by omega), List.get?_drop]
  have e0 : ((payload.drop i).take (i + 4 - i)).get? 0 = payload.get? i := by
    rw [List.get?_take (by omega), List.get?_drop, Nat.add_zero]
  unfold bytesToU32
  rw [Option.some_bind]
  simp only [e3, e2, e1, e0, get?_eq_some_getD payload _ hi3, get?_eq_some_getD payload _ hi2,
    get?_eq_some_getD payload _ hi1, get?_eq_some_getD payload _ hi, Option.some_bind]
  rfl

lemma readTemps_eq (content : Fin 256) (payload : List (Fin 256))
    (h : 28 ≤ payload.length) :
    readTemps content payload = some
      ((if content.val = 0 then u16LE payload 8 else u16LE payload 0),
       (if content.val = 0 then u16LE payload 10 else u16LE payload 2),
       (if content.val = 0 then u16LE payload 12 else u16LE payload 4),
       (if content.val = 0 then u16LE payload 14 else u16LE payload 6),
       (if content.val = 0 then u16LE payload 16 else u16LE payload 8),
       (if content.val = 0 then u16LE payload 18 else u16LE payload 10),
       (if content.val = 0 then u16LE payload 26 else u16LE payload 18)) := by
  have hu : ∀ i : Nat, i + 2 ≤ 28 → u16at payload i = some (u16LE payload i) :=
    fun i hi => u16at_eq _ _ (by omega)
  by_cases hc : content.val = 0 <;>
    simp only [readTemps, hc, ite_true, ite_false, if_true, if_false,
      hu 0 (by omega), hu 2 (by omega), hu 4 (by omega), hu 6 (by omega),
      hu 8 (by omega), hu 10 (by omega), hu 12 (by omega), hu 14 (by omega),
      hu 16 (by omega), hu 18 (by omega), hu 26 (by omega), Option.some_bind]

lemma readAvgClks_eq (payload : List (Fin 256)) (h : 42 ≤ payload.length) :
    readAvgClks payload =
      some (u16LE payload 36, u16LE payload 38, u16LE payload 40) := by
  simp only [readAvgClks, u16at_eq payload 36 (by omega), u16at_eq payload 38 (by omega),
    u16at_eq payload 40 (by omega), Option.some_bind]

lemma readCurClks_eq (payload : List (Fin 256)) (h : 64 ≤ payload.length) :
    readCurClks payload = some
      (u16LE payload 50, u16LE payload 52, u16LE payload 54, u16LE payload 56,
       u16LE payload 58, u16LE payload 60, u16LE payload 62) := by
  simp only [readCurClks, u16at_eq payload 50 (by omega), u16at_eq payload 52 (by omega),
    u16at_eq payload 54 (by omega), u16at_eq payload 56 (by omega),
    u16at_eq payload 58 (by omega), u16at_eq payload 60 (by omega),
    u16at_eq payload 62 (by omega), Option.some_bind]

lemma readTail_eq (payload : List (Fin 256)) (h : 74 ≤ payload.length) :
    readTail payload = some
      (u32LE payload 64, u16LE payload 68, u16LE payload 70, u16LE payload 72) := by
  simp only [readTail, u32at_eq payload 64 (by omega), u16at_eq payload 68 (by omega),
    u16at_eq payload 70 (by omega), u16at_eq payload 72 (by omega), Option.some_bind]

lemma gpuMetricsDecode_long (bytes : List (Fin 256)) (h : 78 ≤ bytes.length) :
    gpuMetricsDecode bytes =
      some (if (bytes.getD 2 0).val = 1 then some (expectedMetrics bytes) else none) := by
  have h2 : bytes.get? 2 = some (bytes.getD 2 0) := get?_eq_some_getD bytes 2 (by omega)
  have h3 : bytes.get? 3 = some (bytes.getD 3 0) := get?_eq_some_getD bytes 3 (by omega)
  have hp : 74 ≤ (bytes.drop 4).length := by rw [List.length_drop]; omega
  unfold gpuMetricsDecode
  rw [h2, h3]
  simp only [Option.some_bind]
  by_cases hf : (bytes.getD 2 0).val = 1
  · rw [if_neg (not_not_intro hf), if_pos hf]
    rw [readTemps_eq (bytes.getD 3 0) (bytes.drop 4) (by omega),
      readAvgClks_eq (bytes.drop 4) (by omega),
      readCurClks_eq (bytes.drop 4) (by omega), readTail_eq (bytes.drop 4) (by omega)]
    simp only [Option.some_bind]
    rfl
  · rw [if_pos hf, if_neg hf]

end GpuLemmas

section NetworkLemmas

lemma hexDigitVal_lt (c : Char) (v : Nat) (h : hexDigitVal c = some v) : v < 16 := by
  unfold hexDigitVal at h
  split_ifs at h with h1 h2 h3
  all_goals first
    | exact Option.noConfusion h
    | (injection h with h; omega)

lemma hexDigitVal_ne_sign (c : Char) (v : Nat) (h : hexDigitVal c = some v) :
    c ≠ '+' ∧ c ≠ '-' := by
  constructor <;> rintro rfl
  · rw [(by decide : hexDigitVal '+' = none)] at h
    exact Option.noConfusion h
  · rw [(by decide : hexDigitVal '-' = none)] at h
    exact Option.noConfusion h

lemma parseHexI64_pair (a b : Char) (x y : Nat) (ha : hexDigitVal a = some x)
    (hb : hexDigitVal b = some y) :
    parseHexI64 [a, b] = some ((x * 16 + y : Nat) : Int) := by
  obtain ⟨hap, ham⟩ := hexDigitVal_ne_sign a x ha
  have hx := hexDigitVal_lt a x ha
  have hy := hexDigitVal_lt b y hb
  unfold parseHexI64
  simp only [List.headD_cons, eq_false ham, eq_false hap, or_false, false_or,
    if_false, ite_false, List.isEmpty_cons, Bool.false_eq_true, mapHexDigits, ha, hb,
    Option.some_bind, List.foldl, eq_self_iff_true, if_true, ite_true]
  rw [if_pos (by omega : (0 * 16 + x) * 16 + y ≤ 2 ^ 63 - 1)]
  congr 1
  omega

lemma bytesToPort_pair (c1 c2 c3 c4 : Char) (v1 v2 v3 v4 : Nat)
    (h1 : hexDigitVal c1 = some v1) (h2 : hexDigitVal c2 = some v2)
    (h3 : hexDigitVal c3 = some v3) (h4 : hexDigitVal c4 = some v4) :
    bytesToPort [c1, c2, c3, c4] = some ((v3 * 16 + v4) * 256 + (v1 * 16 + v2)) := by
  have b1 := hexDigitVal_lt c1 v1 h1
  have b2 := hexDigitVal_lt c2 v2 h2
  have b3 := hexDigitVal_lt c3 v3 h3
  have b4 := hexDigitVal_lt c4 v4 h4
  unfold bytesToPort
  rw [if_neg (show ¬(([c1, c2, c3, c4] : LC).length < 2) by show ¬(4 < 2); omega)]
  dsimp only
  rw [show ([c1, c2, c3, c4] : LC).drop 2 = [c3, c4] from rfl,
      show ([c1, c2, c3, c4] : LC).take 2 = [c1, c2] from rfl]
  rw [parseHexI64_pair c3 c4 v3 v4 h3 h4, Option.some_bind,
      parseHexI64_pair c1 c2 v1 v2 h1 h2, Option.some_bind]
  congr 1
  omega

lemma bytesToPort_lt (p : LC) (n : Nat) (h : bytesToPort p = some n) : n < 65536 := by
  unfold bytesToPort at h
  rcases Nat.lt_or_ge p.length 2 with hl | hl
  · rw [if_pos hl] at h
    exact Option.noConfusion h
  · rw [if_neg (Nat.not_lt.mpr hl)] at h
    dsimp only at h
    rw [Option.bind_eq_some] at h
    obtain ⟨m, hm, h⟩ := h
    rw [Option.bind_eq_some] at h
    obtain ⟨l, hlv, h⟩ := h
    injection h with h
    omega

lemma bytesToAddress_shape (a sep s : LC) (h : bytesToAddress a sep = some s) :
    ∃ vs : List Int, s = joinSep sep ((vs.map intDec).reverse) := by
  unfold bytesToAddress at h
  rw [Option.bind_eq_some] at h
  obtain ⟨vs, hvs, h⟩ := h
  injection h with h
  exact ⟨vs, h.symm⟩

lemma parseEndpoint_shape (sep f : LC) (ep : LC × Nat) (h : parseEndpoint sep f = some ep) :
    (∃ vs : List Int, ep.1 = joinSep sep ((vs.map intDec).reverse)) ∧ ep.2 < 65536 := by
  unfold parseEndpoint at h
  dsimp only at h
  rw [Option.bind_eq_some] at h
  obtain ⟨a0, ha0, h⟩ := h
  rw [Option.bind_eq_some] at h
  obtain ⟨addr, haddr, h⟩ := h
  rw [Option.bind_eq_some] at h
  obtain ⟨p0, hp0, h⟩ := h
  rw [Option.bind_eq_some] at h
  obtain ⟨port, hport, h⟩ := h
  injection h with h
  subst h
  exact ⟨bytesToAddress_shape _ _ _ haddr, bytesToPort_lt _ _ hport⟩

lemma getRoutesLines_shape (sep : LC) (rt : RouteType) :
    ∀ (lines : List LC) (routes : List NetworkRoute),
      getRoutesLines sep rt lines = some routes →
      ∀ r ∈ routes, r.localPort < 65536 ∧ r.remotePort < 65536 ∧
        (∃ vs : List Int, r.localAddress = joinSep sep ((vs.map intDec).reverse)) ∧
        (∃ ws : List Int, r.remoteAddress = joinSep sep ((ws.map intDec).reverse)) := by
  intro lines
  induction lines with
  | nil =>
    intro routes h r hr
    injection h with h
    subst h
    exact absurd hr (List.not_mem_nil r)
  | cons line rest ih =>
    intro routes h r hr
    unfold getRoutesLines at h
    split at h
    · dsimp only at h
      rw [Option.bind_eq_some] at h
      obtain ⟨lf, hlf, h⟩ := h
      rw [Option.bind_eq_some] at h
      obtain ⟨lep, hlep, h⟩ := h
      rw [Option.bind_eq_some] at h
      obtain ⟨rf, hrf, h⟩ := h
      rw [Option.bind_eq_some] at h
      obtain ⟨rep, hrep, h⟩ := h
      rw [Option.bind_eq_some] at h
      obtain ⟨sf, hsf, h⟩ := h
      rw [Option.bind_eq_some] at h
      obtain ⟨routes2, hrec, h⟩ := h
      injection h with h
      subst h
      rcases List.mem_cons.mp hr with rfl | hr2
      · obtain ⟨hla, hlp⟩ := parseEndpoint_shape sep lf lep hlep
        obtain ⟨hra, hrp⟩ := parseEndpoint_shape sep rf rep hrep
        exact ⟨hlp, hrp, hla, hra⟩
      · exact ih routes2 hrec r hr2
    · exact ih routes h r hr

lemma hexChunks_bounds :
    ∀ (f : LC) (vs : List Int), hexChunks f = some vs →
      (∀ c ∈ f, (hexDigitVal c).isSome) → ∀ v ∈ vs, 0 ≤ v ∧ v < 256 := by
  intro f vs h hhex
  induction f using hexChunks.induct generalizing vs with
  | case1 =>
    injection h with h
    subst h
    intro v hv
    exact absurd hv (List.not_mem_nil v)
  | case2 c =>
    exact Option.noConfusion h
  | case3 a b rest ih =>
    unfold hexChunks at h
    rw [Option.bind_eq_some] at h
    obtain ⟨v0, hv0, h⟩ := h
    rw [Option.bind_eq_some] at h
    obtain ⟨vs2, hvs2, h⟩ := h
    injection h with h
    subst h
    have ha : (hexDigitVal a).isSome := hhex a (by simp)
    have hb : (hexDigitVal b).isSome := hhex b (by simp)
    obtain ⟨x, hx⟩ := Option.isSome_iff_exists.mp ha
    obtain ⟨y, hy⟩ := Option.isSome_iff_exists.mp hb
    rw [parseHexI64_pair a b x y hx hy] at hv0
    injection hv0 with hv0
    intro v hv
    rcases List.mem_cons.mp hv with rfl | hv2
    · have bx := hexDigitVal_lt a x hx
      have byy := hexDigitVal_lt b y hy
      subst hv0
      constructor <;> omega
    · exact ih vs2 hvs2 (fun c hc => hhex c (by simp [hc])) v hv2

lemma scanAddresses_mem (network : LC) (used : List LC) :
    ∀ (addrs : List FibEntry) (e : FibEntry),
      scanAddresses network used addrs = some (some e) → e.1 ∉ used := by
  intro addrs
  induction addrs with
  | nil =>
    intro e h
    injection h with h
    exact Option.noConfusion h
  | cons a rest ih =>
    intro e h
    unfold scanAddresses at h
    rw [Option.bind_eq_some] at h
    obtain ⟨base, hb, h⟩ := h
    split at h
    · split at h
      · injection h with h
        exact Option.noConfusion h
      · next hguard =>
        injection h with h
        injection h with h
        subst h
        intro hm
        exact hguard (List.elem_iff.mpr hm)
    · exact ih e h

lemma routeLoop_nodup (addresses : List FibEntry) :
    ∀ (lines : List LC) (usedIps : List LC) (out : List IPv4),
      routeLoop addresses usedIps lines = some out →
      (∀ r ∈ out, r.address ∉ usedIps) ∧ (out.map IPv4.address).Nodup := by
  intro lines
  induction lines with
  | nil =>
    intro used out h
    injection h with h
    subst h
    exact ⟨fun r hr => absurd hr (List.not_mem_nil r), List.nodup_nil⟩
  | cons line rest ih =>
    intro used out h
    unfold routeLoop at h
    split at h
    · exact ih used out h
    · dsimp only at h
      rw [Option.bind_eq_some] at h
      obtain ⟨f1, hf1, h⟩ := h
      rw [Option.bind_eq_some] at h
      obtain ⟨network, hn, h⟩ := h
      rw [Option.bind_eq_some] at h
      obtain ⟨found, hfound, h⟩ := h
      cases found with
      | none => exact ih used out h
      | some entry =>
        rw [Option.bind_eq_some] at h
        obtain ⟨rest2, hrest, h⟩ := h
        have hnotused : entry.1 ∉ used := scanAddresses_mem _ _ addresses entry hfound
        obtain ⟨ih1, ih2⟩ := ih (used ++ [entry.1]) rest2 hrest
        split at h
        · injection h with h
          subst h
          refine ⟨fun r hr hm => ih1 r hr (List.mem_append_left _ hm), ih2⟩
        · injection h with h
          subst h
          constructor
          · intro r hr
            rcases List.mem_cons.mp hr with rfl | hr2
            · exact hnotused
            · exact fun hm => ih1 r hr2 (List.mem_append_left _ hm)
          · refine List.nodup_cons.mpr ⟨?_, ih2⟩
            intro hmem
            obtain ⟨r, hr, hra⟩ := List.mem_map.mp hmem
            exact ih1 r hr (hra ▸ List.mem_append_right used (List.mem_singleton_self entry.1))

lemma startsWith_refl : ∀ p : LC, startsWith p p = true := by
  intro p
  induction p with
  | nil => rfl
  | cons x xs ih => simp [startsWith, ih]

lemma containsSeq_self : ∀ pat : LC, containsSeq pat pat = true := by
  intro pat
  cases pat with
  | nil => rfl
  | cons x xs =>
    unfold containsSeq
    rw [startsWith_refl, Bool.true_or]

lemma containsSeq_cons_of (pat l : LC) (c : Char) (h : containsSeq pat l = true) :
    containsSeq pat (c :: l) = true := by
  unfold containsSeq
  rw [h, Bool.or_true]

lemma trimRight_append_single : ∀ (l : LC) (c : Char), c.isWhitespace = false →
    trimRight (l ++ [c]) = l ++ [c] := by
  intro l c hc
  induction l with
  | nil => simp [trimRight, hc]
  | cons x xs ih =>
    rw [List.cons_append]
    simp only [trimRight, ih, (show (xs ++ [c]).isEmpty = false by cases xs <;> rfl)]
    simp

lemma fibFamily_eval (c1 c2 : Char) :
    fibScan (fibFamily c1 c2) =
      (parseU8 [c1, c2]).bind fun v =>
        some [((("10.0.0.0").data : LC), (("10.0.0.255").data : LC),
              netmaskFromCidr v, ([c1, c2] : LC))] := by
  have h0 : (" link UNICAST").data = ' ' :: markerPat := by decide
  have hmark : containsSeq markerPat ('/' :: c1 :: c2 :: (" link UNICAST").data) = true := by
    rw [h0]
    exact containsSeq_cons_of _ _ _ (containsSeq_cons_of _ _ _ (containsSeq_cons_of _ _ _
      (containsSeq_cons_of _ _ _ (containsSeq_self markerPat))))
  have htriml : trimLeft ('/' :: c1 :: c2 :: (" link UNICAST").data) =
      '/' :: c1 :: c2 :: (" link UNICAST").data := by
    unfold trimLeft
    rw [List.dropWhile_cons, if_neg (by decide)]
  have happ : ('/' : Char) :: c1 :: c2 :: (" link UNICAST").data =
      ('/' :: c1 :: c2 :: (" link UNICAS").data) ++ ['T'] := by
    rw [show (" link UNICAST").data = (" link UNICAS").data ++ ['T'] from by decide]
    rfl
  have htrim : trimStr ('/' :: c1 :: c2 :: (" link UNICAST").data) =
      '/' :: c1 :: c2 :: (" link UNICAST").data := by
    unfold trimStr
    rw [htriml, happ, trimRight_append_single _ _ (by decide), ← happ]
  have hsl : sliceGet ('/' :: c1 :: c2 :: (" link UNICAST").data) 1 3 = some [c1, c2] := by
    unfold sliceGet
    rw [if_pos ⟨by omega, by
      simp only [List.length_cons]
      have h13 : (" link UNICAST").data.length = 13 := by decide
      omega⟩]
    rfl
  show fibScan (('/' :: c1 :: c2 :: (" link UNICAST").data) ::
      [("|-- 10.0.0.0").data, ("/32 host LOCAL").data, ("|-- 10.0.0.255").data]) = _
  simp only [fibScan, fibAwait, hmark, htrim, hsl, if_true, ite_true,
    (by decide : removeBarDashes (("|-- 10.0.0.0").data) = ((" 10.0.0.0").data : LC)),
    (by decide : containsSeq ['+'] ((" 10.0.0.0").data) = false),
    (by decide : containsSeq markerPat ((" 10.0.0.0").data) = false),
    (by decide : trimStr ((" 10.0.0.0").data) = (("10.0.0.0").data : LC)),
    (by decide : containsSeq hostLocalPat (("|-- 10.0.0.0").data) = false),
    (by decide : containsSeq hostLocalPat (("/32 host LOCAL").data) = true),
    (by decide : removeBarDashes (("|-- 10.0.0.255").data) = ((" 10.0.0.255").data : LC)),
    (by decide : trimStr ((" 10.0.0.255").data) = (("10.0.0.255").data : LC)),
    Bool.false_eq_true, if_false, ite_false, eq_self_iff_true]
  have harg : (List.take (3 - 1) (List.drop 1
      ['/', c1, c2, ' ', 'l', 'i', 'n', 'k', ' ', 'U', 'N', 'I', 'C', 'A', 'S', 'T'])) =
      [c1, c2] := rfl
  rw [harg]
  cases hp : parseU8 [c1, c2] with
  | none => rfl
  | some v => rfl

end NetworkLemmas

/-- C8: `bytesToU16` on any byte sequence of length at least 2 returns
`bytes[1] * 256 + bytes[0]` (little-endian, least-significant byte first). -/
theorem bytesToU16_little_endian (bytes : List (Fin 256)) (h : 2 ≤ bytes.length) :
    bytesToU16 bytes = some ((bytes.getD 1 0).val * 256 + (bytes.getD 0 0).val) := by
  unfold bytesToU16
  rw [get?_eq_some_getD bytes 1 (by omega), get?_eq_some_getD bytes 0 (by omega)]
  simp only [Option.some_bind]
  rw [foldl_double _ (bytes.getD 1 default).isLt]
  have b1 : (bytes.getD 1 default).val < 256 := (bytes.getD 1 default).isLt
  have b0 : (bytes.getD 0 default).val < 256 := (bytes.getD 0 default).isLt
  congr 1
  rw [Nat.mod_eq_of_lt (by omega)]
  rfl

/-- Witness for C8: the bytes `[0x34, 0x12]` decode to `0x1234 = 4660`. -/
theorem bytesToU16_little_endian_witness :
    2 ≤ ([52, 18] : List (Fin 256)).length ∧
      bytesToU16 [52, 18] = some 4660 :=
  ⟨by decide, (bytesToU16_little_endian [52, 18] (by decide)).trans (by decide)⟩

/-- C1: for every gpu_metrics buffer that is long enough for all fixed offsets
(78 bytes: 4-byte header plus 74-byte payload) and whose format byte (byte 2)
equals 1, `gpuMetricsDecode` reads the six temperature fields and the socket
power from the legacy payload offsets 8-10, 10-12, 12-14, 14-16, 16-18, 18-20,
26-28 when the content/version byte (byte 3) is 0 and from the current offsets
0-2, 2-4, 4-6, 6-8, 8-10, 10-12, 18-20 otherwise, and every remaining field
from its single version-independent offset (36-38, 38-40, 40-42, 50-52, 52-54,
54-56, 56-58, 58-60, 60-62, 62-64, throttle status as u32 at 64-68, 68-70,
70-72, 72-74), each u16 decoded little-endian — exactly the offset table
recorded by `expectedMetrics`. -/
theorem gpuMetrics_offset_table (bytes : List (Fin 256)) (h : 78 ≤ bytes.length)
    (hf : (bytes.getD 2 0).val = 1) :
    gpuMetricsDecode bytes = some (some (expectedMetrics bytes)) := by
  rw [gpuMetricsDecode_long bytes h, if_pos hf]

/-- Witness for C1 at two concrete 78-byte buffers, one per content branch. -/
theorem gpuMetrics_offset_table_witness :
    78 ≤ buf78.length ∧ (buf78.getD 2 0).val = 1 ∧
      gpuMetricsDecode buf78 = some (some (expectedMetrics buf78)) ∧
      gpuMetricsDecode buf78c = some (some (expectedMetrics buf78c)) :=
  ⟨by decide, by decide, gpuMetrics_offset_table buf78 (by decide) (by decide),
    gpuMetrics_offset_table buf78c (by decide) (by decide)⟩

/-- C4: `gpuMetrics` yields None exactly when the read fails or the format tag
is unsupported — a failed read gives None; any buffer carrying the 4-byte
header whose format byte differs from 1 decodes to None regardless of payload
content; and a format-1 buffer long enough for all offsets yields a fully
populated record. -/
theorem gpuMetrics_unavailable_policy :
    gpuMetrics none = some none ∧
    (∀ bytes : List (Fin 256), 4 ≤ bytes.length → (bytes.getD 2 0).val ≠ 1 →
      gpuMetrics (some bytes) = some none) ∧
    (∀ bytes : List (Fin 256), 78 ≤ bytes.length → (bytes.getD 2 0).val = 1 →
      ∃ m : GpuMetrics, gpuMetrics (some bytes) = some (some m)) := by
  refine ⟨rfl, ?_, ?_⟩
  · intro bytes hlen hf
    show gpuMetricsDecode bytes = some none
    have h2 : bytes.get? 2 = some (bytes.getD 2 0) := get?_eq_some_getD bytes 2 (by omega)
    have h3 : bytes.get? 3 = some (bytes.getD 3 0) := get?_eq_some_getD bytes 3 (by omega)
    unfold gpuMetricsDecode
    rw [h2, h3]
    simp only [Option.some_bind]
    rw [if_pos hf]
  · intro bytes hlen hf
    refine ⟨expectedMetrics bytes, ?_⟩
    show gpuMetricsDecode bytes = _
    rw [gpuMetricsDecode_long bytes hlen, if_pos hf]

/-- Witness for C4: a concrete bad-format buffer decodes to None and a
concrete format-1 buffer to a populated record. -/
theorem gpuMetrics_unavailable_policy_witness :
    gpuMetrics (some bufBadFormat) = some none ∧
      ∃ m : GpuMetrics, gpuMetrics (some buf78) = some (some m) :=
  ⟨gpuMetrics_unavailable_policy.2.1 bufBadFormat (by decide) (by decide),
    gpuMetrics_unavailable_policy.2.2 buf78 (by decide) (by decide)⟩

/-- C10: every successfully read buffer of length at least 78 decodes with
only in-bounds accesses — Some record when the format byte is 1 and None
otherwise, never the panic value — and 78 is minimal: a 77-byte buffer exists
on which decoding hits an out-of-bounds slice (the outer `none`). -/
theorem gpuMetrics_inbounds_min_length :
    (∀ bytes : List (Fin 256), 78 ≤ bytes.length →
      ((bytes.getD 2 0).val = 1 → ∃ m, gpuMetricsDecode bytes = some (some m)) ∧
      ((bytes.getD 2 0).val ≠ 1 → gpuMetricsDecode bytes = some none)) ∧
    (∃ bytes : List (Fin 256), bytes.length = 77 ∧ gpuMetricsDecode bytes = none) := by
  constructor
  · intro bytes h
    constructor
    · intro hf
      exact ⟨expectedMetrics bytes, by rw [gpuMetricsDecode_long bytes h, if_pos hf]⟩
    · intro hf
      rw [gpuMetricsDecode_long bytes h, if_neg hf]
  · exact ⟨buf77, by decide, by decide⟩

/-- Witness for C10 at concrete buffers of both format classes. -/
theorem gpuMetrics_inbounds_min_length_witness :
    (∃ m, gpuMetricsDecode buf78 = some (some m)) ∧
      gpuMetricsDecode buf78b = some none :=
  ⟨(gpuMetrics_inbounds_min_length.1 buf78 (by decide)).1 (by decide),
    (gpuMetrics_inbounds_min_length.1 buf78b (by decide)).2 (by decide)⟩

/-- C3: `bytesToAddress` splits the hex string into 2-character byte groups
left to right, converts each group to an integer, reverses the group order and
joins with the separator; decoding the reversed hex-pair encoding "0101A8C0"
of the octets 192.168.1.1 with separator '.' reproduces "192.168.1.1". -/
theorem bytesToAddress_reverse_join :
    (∀ (address separator : LC) (chunks : List Int), hexChunks address = some chunks →
      bytesToAddress address separator =
        some (joinSep separator ((chunks.map intDec).reverse))) ∧
    bytesToAddress (("0101A8C0").data) ['.'] = some (("192.168.1.1").data) := by
  constructor
  · intro address separator chunks h
    unfold bytesToAddress
    rw [h, Option.some_bind]
  · decide

/-- Witness for C3 at the concrete kernel encoding "0101A8C0". -/
theorem bytesToAddress_reverse_join_witness :
    hexChunks (("0101A8C0").data) = some [1, 1, 168, 192] ∧
      bytesToAddress (("0101A8C0").data) ['.'] =
        some (joinSep ['.'] ((([1, 1, 168, 192] : List Int).map intDec).reverse)) :=
  ⟨by decide,
    bytesToAddress_reverse_join.1 (("0101A8C0").data) ['.'] [1, 1, 168, 192] (by decide)⟩

/-- C5: for every cidr in 0..32, `netmaskFromCidr` renders the 32-bit mask
whose top `cidr` bits are 1, packed MSB-first into four dot-separated decimal
octets (`specNetmask`); in particular 24 gives "255.255.255.0", 0 gives
"0.0.0.0" and 32 gives "255.255.255.255". -/
theorem netmaskFromCidr_spec :
    (∀ cidr : Nat, cidr ≤ 32 → netmaskFromCidr cidr = specNetmask cidr) ∧
    netmaskFromCidr 24 = ("255.255.255.0").data ∧
    netmaskFromCidr 0 = ("0.0.0.0").data ∧
    netmaskFromCidr 32 = ("255.255.255.255").data := by
  refine ⟨?_, by decide, by decide, by decide⟩
  intro cidr hc
  exact (by decide : ∀ c < 33, netmaskFromCidr c = specNetmask c) cidr (by omega)

/-- Witness for C5 at cidr 24. -/
theorem netmaskFromCidr_spec_witness :
    24 ≤ 32 ∧ netmaskFromCidr 24 = specNetmask 24 :=
  ⟨by decide, netmaskFromCidr_spec.1 24 (by decide)⟩

/-- C6: for every 4-hex-character port field, `bytesToPort` treats the first
2-character half as the low byte and the second as the high byte and returns
high*256 + low; in particular "5000" decodes to 80. -/
theorem bytesToPort_low_high :
    (∀ (c1 c2 c3 c4 : Char) (v1 v2 v3 v4 : Nat),
      hexDigitVal c1 = some v1 → hexDigitVal c2 = some v2 →
      hexDigitVal c3 = some v3 → hexDigitVal c4 = some v4 →
      bytesToPort [c1, c2, c3, c4] = some ((v3 * 16 + v4) * 256 + (v1 * 16 + v2))) ∧
    bytesToPort (("5000").data) = some 80 :=
  ⟨fun c1 c2 c3 c4 v1 v2 v3 v4 h1 h2 h3 h4 =>
    bytesToPort_pair c1 c2 c3 c4 v1 v2 v3 v4 h1 h2 h3 h4, by decide⟩

/-- Witness for C6 at the concrete field "5000". -/
theorem bytesToPort_low_high_witness :
    bytesToPort ['5', '0', '0', '0'] = some ((0 * 16 + 0) * 256 + (5 * 16 + 0)) :=
  bytesToPort_low_high.1 '5' '0' '0' '0' 5 0 0 0 (by decide) (by decide) (by decide)
    (by decide)


/-- C7 (amended): every route `getRoutes` produces has ports in 0..65535 and
address strings that are the reversed, separator-joined, **decimal** renderings
of the decoded byte groups (for v4 the separator is '.' and for hex-digit
fields the groups are octet values 0..255; for v6 the separator is ':' with
decimal groups, not hexadecimal ones); every chunk decoded from a hex-digit
field lies in 0..255. -/
theorem getRoutes_format_ports :
    (∀ (file separator : LC) (routeType : RouteType) (routes : List NetworkRoute),
      getRoutes file separator routeType = some routes →
      ∀ r ∈ routes, r.localPort < 65536 ∧ r.remotePort < 65536 ∧
        (∃ vs : List Int, r.localAddress = joinSep separator ((vs.map intDec).reverse)) ∧
        (∃ ws : List Int, r.remoteAddress = joinSep separator ((ws.map intDec).reverse))) ∧
    (∀ (f : LC) (vs : List Int), hexChunks f = some vs →
      (∀ c ∈ f, (hexDigitVal c).isSome) → ∀ v ∈ vs, 0 ≤ v ∧ v < 256) := by
  constructor
  · intro file sep rt routes h r hr
    exact getRoutesLines_shape sep rt _ routes h r hr
  · exact hexChunks_bounds

set_option maxRecDepth 10000 in
/-- Counterexample for C7 as stated: the v6 route decoded from `c7file`
carries the byte 0x1F, rendered "31" (decimal), which differs from the
colon-joined hexadecimal-group rendering ("1f") the claim asserts. -/
theorem getRoutes_hexgroups_cex :
    getRoutes c7file [':'] RouteType.TCP6 = some [c7route] ∧
    hexGroupsOf (("1F000000000000000000000000000000").data) =
      some (("0:0:0:0:0:0:0:0:0:0:0:0:0:0:0:1f").data) ∧
    c7route.localAddress ≠ ("0:0:0:0:0:0:0:0:0:0:0:0:0:0:0:1f").data :=
  ⟨by decide, by decide, by decide⟩

set_option maxRecDepth 10000 in
/-- Witness for C7 (amended) at the concrete tcp6 file. -/
theorem getRoutes_format_ports_witness :
    c7route.localPort < 65536 ∧ c7route.remotePort < 65536 ∧
      (∃ vs : List Int, c7route.localAddress = joinSep [':'] ((vs.map intDec).reverse)) ∧
      (∃ ws : List Int, c7route.remoteAddress = joinSep [':'] ((ws.map intDec).reverse)) :=
  getRoutes_format_ports.1 c7file [':'] RouteType.TCP6 [c7route] (by decide) c7route
    (by decide)


/-- C2: in every call of `getIPv4` each resolved fib_trie address is bound to
at most one route-table device entry (the output addresses are pairwise
distinct), and on the concrete route file whose two device entries decode to
the same destination network only the first (eth0) is bound — the second entry
is omitted from the result rather than bound or duplicated. -/
theorem getIPv4_dedup :
    (∀ (routeFile fibTrie : LC) (out : List IPv4), getIPv4 routeFile fibTrie = some out →
      (out.map IPv4.address).Nodup) ∧
    getIPv4 routeFileC2 fibTrieC2 = some [ipv4C2] := by
  constructor
  · intro rf ft out h
    unfold getIPv4 at h
    rw [Option.bind_eq_some] at h
    obtain ⟨addrs, ha, h⟩ := h
    exact (routeLoop_nodup addrs _ [] out h).2
  · decide

/-- Witness for C2: the deduplication invariant instantiated on the concrete
two-entry route file. -/
theorem getIPv4_dedup_witness : (([ipv4C2].map IPv4.address)).Nodup :=
  getIPv4_dedup.1 routeFileC2 fibTrieC2 [ipv4C2] getIPv4_dedup.2


/-- C9 (amended): the CIDR a fib_trie entry records is exactly the 2-character
slice at positions 1..3 of the trimmed marker line, and a prefix that does not
fill those two characters with a decimal number aborts the call exactly when
the entry is carried to completion: on the four-line entry family
`fibFamily c1 c2` the scan aborts (none) when `parseU8 [c1, c2]` fails and
yields the tuple with cidr `[c1, c2]` when it parses, and an aborting fib_trie
makes the whole `getIPv4` call abort; an entry abandoned at a '+'-continuation
line, however, discards the malformed prefix without aborting (see the
counterexample). -/
theorem fibTrie_cidr_slice_abort :
    (∀ c1 c2 : Char, parseU8 [c1, c2] = none → fibScan (fibFamily c1 c2) = none) ∧
    (∀ (c1 c2 : Char) (v : Nat), parseU8 [c1, c2] = some v →
      fibScan (fibFamily c1 c2) =
        some [((("10.0.0.0").data : LC), (("10.0.0.255").data : LC),
              netmaskFromCidr v, ([c1, c2] : LC))]) ∧
    (∀ (routeFile fibTrie : LC) (c1 c2 : Char),
      splitOnChar '\n' fibTrie = fibFamily c1 c2 → parseU8 [c1, c2] = none →
      getIPv4 routeFile fibTrie = none) := by
  refine ⟨?_, ?_, ?_⟩
  · intro c1 c2 h
    rw [fibFamily_eval, h]
    rfl
  · intro c1 c2 v h
    rw [fibFamily_eval, h]
    rfl
  · intro rf ft c1 c2 hsplit h
    unfold getIPv4
    rw [hsplit, fibFamily_eval, h]
    rfl

/-- Counterexample for C9 as stated: the marker line "/8 link UNICAST" carries
the malformed 2-character prefix "8 " (its slice at 1..3), yet when the next
line is a '+'-continuation branch the call recovers and returns successfully
instead of aborting. -/
theorem fibTrie_bad_prefix_recovers :
    containsSeq markerPat (("/8 link UNICAST").data) = true ∧
    sliceGet (trimStr (("/8 link UNICAST").data)) 1 3 = some (("8 ").data) ∧
    parseU8 (("8 ").data) = none ∧
    getIPv4 [] c9fib = some [] :=
  ⟨by decide, by decide, by decide, by decide⟩

/-- Witness for C9 (amended) at concrete prefixes "8 " (malformed, aborts) and
"24" (well-formed, completes). -/
theorem fibTrie_cidr_slice_abort_witness :
    fibScan (fibFamily '8' ' ') = none ∧
      fibScan (fibFamily '2' '4') =
        some [((("10.0.0.0").data : LC), (("10.0.0.255").data : LC),
              netmaskFromCidr 24, (['2', '4'] : LC))] :=
  ⟨fibTrie_cidr_slice_abort.1 '8' ' ' (by decide),
   fibTrie_cidr_slice_abort.2.1 '2' '4' 24 (by decide)⟩


end Sysutil
